import Mathlib

/-!
Shallow embedding of the page-reload extension's scheduling and sync core:
the jitter generator (`calculateNextInterval`), the rule matcher
(`findActiveTimerForUrl`), the timer store (`updateTimer`, `performSync`,
`mergeWithSync`) and the background reconciliation handlers (`handleReload`,
`onTabRemoved`, `onTabUpdated`).  JavaScript numbers are modelled as
rationals (`ℚ`) where fractional arithmetic occurs and as integers where the
source only ever holds epoch timestamps; the platform URL parser is an
explicit `parse` argument, and the `Math.random` / Box-Muller draws are
explicit inputs, so every function is pure and executable.
-/

namespace PageReload

/-- Result shape of the platform `URL` constructor; the source reads only
`hostname`. -/
structure UrlObject where
  hostname : String
deriving DecidableEq

/-- Embedding of `getDomainFromUrl` (shared/utils.js, lines 10-17):
`new URL(url).hostname` inside try/catch.  The platform parser is the
explicit argument `parse`; a parse failure (`none`, standing for the thrown
exception) yields `null`. -/
def getDomainFromUrl (parse : String → Option UrlObject) (url : String) :
    Option String :=
  match parse url with
  | some urlObj => some urlObj.hostname
  | none => none

/-- Concrete instantiation of the platform URL parser on the handful of
addresses used by witnesses and counterexamples; it agrees with the real
WHATWG parser on these strings. -/
def demoParse : String → Option UrlObject := fun s =>
  if s = "https://a.com/x" then some ⟨"a.com"⟩
  else if s = "https://a.com/y" then some ⟨"a.com"⟩
  else if s = "https://b.com/" then some ⟨"b.com"⟩
  else none

/-- JavaScript `x || d` for an optional numeric field: `undefined`, `null`
and `0` are falsy. -/
def jsOrQ (x : Option ℚ) (d : ℚ) : ℚ :=
  match x with
  | none => d
  | some v => if v = 0 then d else v

/-- JavaScript `Math.round`: round half toward positive infinity. -/
def jsRound (q : ℚ) : ℤ := ⌊q + 1 / 2⌋

/-- Randomness configuration of a background entry
(`entry.randomness`). -/
structure RandomnessCfg where
  enabled : Bool
  variationPercent : Option ℚ
  useNormalDistribution : Bool
deriving DecidableEq

/-- Background-store entry (one value of the `autoReloadTabs` map): the flat
record `{url, applyToDomain, intervalSeconds, randomness, nextReloadAt,
currentActualInterval, savedAt}` of the background source.  Optional fields
model keys that may be absent. -/
structure BgEntry where
  url : String
  applyToDomain : Bool
  intervalSeconds : Option ℚ
  randomness : Option RandomnessCfg
  nextReloadAt : Option ℚ
  currentActualInterval : Option ℚ
  savedAt : Option ℚ
deriving DecidableEq

/-- Embedding of `generateNormalRandom(mean, stdDev)`: the Box-Muller
standard-normal value computed from the two uniform draws is taken as the
explicit input `z0`, so the function is `z0 * stdDev + mean`. -/
def generateNormalRandom (mean stdDev z0 : ℚ) : ℚ := z0 * stdDev + mean

/-- Embedding of `calculateNextInterval(entry)` (background source):
`u` is the `Math.random()` draw of the uniform branch and `z0` the
standard-normal draw of the Box-Muller branch. -/
def calculateNextInterval (entry : BgEntry) (u z0 : ℚ) : ℚ :=
  let baseInterval := jsOrQ entry.intervalSeconds 60
  match entry.randomness with
  | none => baseInterval
  | some r =>
    if !r.enabled then baseInterval
    else
      let variationPercent := jsOrQ r.variationPercent 0
      let variation := baseInterval * (variationPercent / 100)
      let randomInterval :=
        if r.useNormalDistribution then
          generateNormalRandom baseInterval (variation / 2) z0
        else
          let minInterval := baseInterval - variation
          let maxInterval := baseInterval + variation
          minInterval + u * (maxInterval - minInterval)
      max 1 (min (baseInterval * 2) ((jsRound randomInterval : ℤ) : ℚ))

theorem jsOrQ_some_self (p : ℚ) : jsOrQ (some p) 0 = p := by
  by_cases h : p = 0 <;> simp [jsOrQ, h]

theorem jsRound_le (q : ℚ) : ((jsRound q : ℤ) : ℚ) ≤ q + 1 / 2 := by
  simpa [jsRound] using Int.floor_le (q + 1 / 2)

theorem lt_jsRound (q : ℚ) : q - 1 / 2 < ((jsRound q : ℤ) : ℚ) := by
  have h := Int.sub_one_lt_floor (q + 1 / 2)
  simp only [jsRound]
  linarith

/-- C7: for every settings record with integer `intervalSeconds ≥ 1` whose
randomness is disabled or absent, the jitter generator returns exactly
`intervalSeconds`, unchanged. -/
theorem c7_disabled_randomness_identity
    (entry : BgEntry) (n : ℕ) (u z0 : ℚ)
    (hint : entry.intervalSeconds = some (n : ℚ))
    (hpos : 1 ≤ n)
    (hrand : entry.randomness = none ∨
      ∃ r, entry.randomness = some r ∧ r.enabled = false) :
    calculateNextInterval entry u z0 = (n : ℚ) := by
  have hne : (n : ℚ) ≠ 0 := Nat.cast_ne_zero.mpr (Nat.one_le_iff_ne_zero.mp hpos)
  rcases hrand with h | ⟨r, hr, he⟩
  · simp [calculateNextInterval, h, hint, jsOrQ, hne]
  · simp [calculateNextInterval, hr, hint, he, jsOrQ, hne]

/-- C7 witness: interval 120 seconds with randomness absent comes back as
exactly 120. -/
theorem c7_witness :
    calculateNextInterval
      { url := "https://a.com/x", applyToDomain := false,
        intervalSeconds := some 120, randomness := none,
        nextReloadAt := none, currentActualInterval := none,
        savedAt := none } 0 0 = 120 := by
  have h := c7_disabled_randomness_identity
    { url := "https://a.com/x", applyToDomain := false,
      intervalSeconds := some 120, randomness := none,
      nextReloadAt := none, currentActualInterval := none,
      savedAt := none } 120 0 0 (by norm_num) (by norm_num) (Or.inl rfl)
  simpa using h

/-- Uniform-jitter entry with base 10 and variationPercent 26, so that
variation = 2.6 and the claimed lower bound max(1, base - variation) is
7.4; used by the C8 counterexample and witness. -/
def entryC8 : BgEntry :=
  { url := "https://a.com/x", applyToDomain := false,
    intervalSeconds := some 10,
    randomness := some { enabled := true, variationPercent := some 26,
                         useNormalDistribution := false },
    nextReloadAt := none, currentActualInterval := none, savedAt := none }

/-- C8 counterexample: with base 10, variationPercent 26 (variation 2.6)
and uniform draw u = 0 the generator rounds 7.4 down to 7, which is below
the claimed lower bound max(1, base - variation) = 7.4, so the output does
not always lie within [max(1, base - variation), base + variation]. -/
theorem c8_counterexample :
    calculateNextInterval entryC8 0 0 = 7 ∧
    calculateNextInterval entryC8 0 0 < max 1 ((10 : ℚ) - 10 * (26 / 100)) := by
  have h7 : calculateNextInterval entryC8 0 0 = 7 := by
    have hfl : jsRound (37 / 5 : ℚ) = 7 := by
      rw [jsRound, Int.floor_eq_iff]
      norm_num
    norm_num [calculateNextInterval, entryC8, jsOrQ, generateNormalRandom, hfl]
  refine ⟨h7, ?_⟩
  rw [h7]
  rw [show max 1 ((10 : ℚ) - 10 * (26 / 100)) = 37 / 5 by norm_num]
  norm_num

/-- C8 amended: for every enabled-uniform-jitter configuration with integer
base ≥ 1 and 0 ≤ variationPercent ≤ 100, and every uniform draw u ∈ [0, 1),
the output lies within [max(1, base - variation - 1/2),
base + variation + 1/2] (rounding to the nearest second can leave the
claimed interval by at most 1/2) and within [1, 2·base] always. -/
theorem c8_uniform_jitter_bounds
    (entry : BgEntry) (n : ℕ) (p u z0 : ℚ)
    (hint : entry.intervalSeconds = some (n : ℚ))
    (hn : 1 ≤ n)
    (hrand : entry.randomness = some (RandomnessCfg.mk true (some p) false))
    (hp0 : 0 ≤ p) (hp1 : p ≤ 100) (hu0 : 0 ≤ u) (hu1 : u < 1) :
    max 1 ((n : ℚ) - (n : ℚ) * (p / 100) - 1 / 2)
        ≤ calculateNextInterval entry u z0 ∧
    calculateNextInterval entry u z0 ≤ (n : ℚ) + (n : ℚ) * (p / 100) + 1 / 2 ∧
    1 ≤ calculateNextInterval entry u z0 ∧
    calculateNextInterval entry u z0 ≤ 2 * (n : ℚ) := by
  have hb1 : (1 : ℚ) ≤ (n : ℚ) := by exact_mod_cast hn
  have hbne : (n : ℚ) ≠ 0 := by linarith
  set b : ℚ := (n : ℚ) with hbdef
  set v : ℚ := b * (p / 100) with hvdef
  have hv0 : 0 ≤ v := by
    have : (0 : ℚ) ≤ b := by linarith
    positivity
  have hv1 : v ≤ b := by
    rw [hvdef]
    nlinarith
  set x : ℚ := (b - v) + u * ((b + v) - (b - v)) with hxdef
  have hout : calculateNextInterval entry u z0 =
      max 1 (min (b * 2) ((jsRound x : ℤ) : ℚ)) := by
    simp only [calculateNextInterval, hint, hrand, jsOrQ, hbne, if_false,
      Bool.not_true, Bool.false_eq_true, ite_false, jsOrQ_some_self]
    by_cases hp : p = 0
    · have hx : x = b := by rw [hxdef, hvdef, hp]; ring
      simp only [jsOrQ, hp, ← hvdef, hbne, hx]
      simp [hbne]
    · have hx : b - v + u * (v + v) = x := by rw [hxdef]; ring
      simp [jsOrQ, hp, ← hvdef, hbne, hx]
  have hxlo : b - v ≤ x := by
    have : 0 ≤ u * (2 * v) := mul_nonneg hu0 (by linarith)
    rw [hxdef]; ring_nf; ring_nf at this; linarith
  have hxhi : x ≤ b + v := by
    have hu1' : u ≤ 1 := le_of_lt hu1
    have : u * (2 * v) ≤ 2 * v := by nlinarith
    rw [hxdef]; ring_nf; ring_nf at this; linarith
  have hrlo : b - v - 1 / 2 < ((jsRound x : ℤ) : ℚ) := by
    have := lt_jsRound x
    linarith
  have hrhi : ((jsRound x : ℤ) : ℚ) ≤ b + v + 1 / 2 := by
    have := jsRound_le x
    linarith
  rw [hout]
  refine ⟨?_, ?_, ?_, ?_⟩
  · refine max_le (le_max_left _ _) ?_
    refine le_trans (le_min ?_ (le_of_lt hrlo)) (le_max_right _ _)
    linarith
  · refine max_le (by linarith) ?_
    exact le_trans (min_le_right _ _) hrhi
  · exact le_max_left _ _
  · refine max_le (by linarith) ?_
    exact le_trans (min_le_left _ _) (by linarith)

/-- C8 witness: the amended bounds instantiated at base 10,
variationPercent 26, u = 0. -/
theorem c8_witness :
    max 1 ((10 : ℚ) - 10 * (26 / 100) - 1 / 2)
        ≤ calculateNextInterval entryC8 0 0 ∧
    calculateNextInterval entryC8 0 0 ≤ (10 : ℚ) + 10 * (26 / 100) + 1 / 2 ∧
    1 ≤ calculateNextInterval entryC8 0 0 ∧
    calculateNextInterval entryC8 0 0 ≤ 2 * (10 : ℚ) := by
  have h := c8_uniform_jitter_bounds entryC8 10 26 0 0
    (by norm_num [entryC8]) (by norm_num) rfl
    (by norm_num) (by norm_num) (by norm_num) (by norm_num)
  simpa using h

/-- Type tag of a timer rule: `"url"` or `"domain"`. -/
inductive RuleType where
  | url
  | domain
deriving DecidableEq

/-- Address-matching rule `{type, value}` of a sidepanel timer. -/
structure Rule where
  type : RuleType
  value : String
deriving DecidableEq

/-- Randomness settings of a sidepanel timer (opaque to the store and
matcher; integer-valued in the persisted record). -/
structure RandomnessSettings where
  enabled : Bool
  variationPercent : Int
  useNormalDistribution : Bool
deriving DecidableEq

/-- Synced user settings `{intervalSeconds, randomness}` of a timer. -/
structure Settings where
  intervalSeconds : Int
  randomness : RandomnessSettings
deriving DecidableEq

/-- Device-local runtime state `{nextReloadAt, currentActualInterval}` of a
timer. -/
structure TimerState where
  nextReloadAt : Int
  currentActualInterval : Int
deriving DecidableEq

/-- Sidepanel timer record `{id, tabId, createdAt, updatedAt, rule,
settings, state}`.  `tabId = none` models `null` (orphaned);
`updatedAt = none` models a record from before the sync era that lacks the
key. -/
structure Timer where
  id : String
  tabId : Option Int
  createdAt : Int
  updatedAt : Option Int
  rule : Rule
  settings : Settings
  state : TimerState
deriving DecidableEq

/-- Match test of the collection loop inside `findActiveTimerForUrl`: a
url rule matches on exact address equality, a domain rule on equality with
`getDomainFromUrl(currentUrl)` (which never matches when the address fails
to parse, since `value === null` is false for a string value). -/
def timerMatches (parse : String → Option UrlObject) (currentUrl : String)
    (timer : Timer) : Bool :=
  match timer.rule.type with
  | RuleType.url => timer.rule.value == currentUrl
  | RuleType.domain =>
    match getDomainFromUrl parse currentUrl with
    | some currentDomain => timer.rule.value == currentDomain
    | none => false

/-- Timers matching the address, in the enumeration order of the `allTimers`
object (modelled as an ordered association list). -/
def matchingTimersFor (parse : String → Option UrlObject)
    (allTimers : List (String × Timer)) (currentUrl : String) : List Timer :=
  (allTimers.map Prod.snd).filter (timerMatches parse currentUrl)

/-- First element with maximal `createdAt`.  JavaScript `Array.sort` is
stable, so `matchingTimers.sort((a, b) => b.createdAt - a.createdAt)[0]` is
exactly the earliest-listed timer among those with the largest
`createdAt`. -/
def firstMaxByCreatedAt (timers : List Timer) : Option Timer :=
  timers.foldl
    (fun best t =>
      match best with
      | none => some t
      | some b => if b.createdAt < t.createdAt then some t else some b)
    none

/-- Conflict resolution of `findActiveTimerForUrl`: empty list gives null,
a single match wins outright, otherwise the first domain-rule timer wins
and, failing that, the sort by descending `createdAt` decides. -/
def resolveTimerConflict : List Timer → Option Timer
  | [] => none
  | [t] => some t
  | t₁ :: t₂ :: rest =>
    match (t₁ :: t₂ :: rest).find?
        (fun t => t.rule.type == RuleType.domain) with
    | some domainTimer => some domainTimer
    | none => firstMaxByCreatedAt (t₁ :: t₂ :: rest)

/-- Embedding of `findActiveTimerForUrl(allTimers, currentUrl)`
(shared/utils.js, lines 56-84). -/
def findActiveTimerForUrl (parse : String → Option UrlObject)
    (allTimers : List (String × Timer)) (currentUrl : String) :
    Option Timer :=
  resolveTimerConflict (matchingTimersFor parse allTimers currentUrl)

theorem firstMaxByCreatedAt_rec (timers : List Timer) (best : Option Timer)
    (t : Timer)
    (h : timers.foldl
      (fun best t =>
        match best with
        | none => some t
        | some b => if b.createdAt < t.createdAt then some t else some b)
      best = some t) :
    (best = some t ∨ t ∈ timers) ∧
    (∀ b, best = some b → b.createdAt ≤ t.createdAt) ∧
    (∀ t', t' ∈ timers → t'.createdAt ≤ t.createdAt) := by
  induction timers generalizing best with
  | nil =>
    refine ⟨Or.inl h, fun b hb => ?_, fun t' ht' => absurd ht' (by simp)⟩
    rw [hb] at h
    simp at h
    rw [h]
  | cons a l ih =>
    simp only [List.foldl_cons] at h
    obtain ⟨hmem, hbest, hall⟩ := ih _ h
    constructor
    · rcases hmem with hm | hm
      · rcases best with _ | b
        · simp at hm
          exact Or.inr (by simp [hm])
        · by_cases hlt : b.createdAt < a.createdAt
          · simp [hlt] at hm
            exact Or.inr (by simp [hm])
          · simp [hlt] at hm
            exact Or.inl (by simp [hm])
      · exact Or.inr (List.mem_cons_of_mem _ hm)
    constructor
    · intro b hb
      subst hb
      by_cases hlt : b.createdAt < a.createdAt
      · have := hbest a (by simp [hlt])
        linarith
      · exact hbest b (by simp [hlt])
    · intro t' ht'
      rcases List.mem_cons.mp ht' with h' | h'
      · subst h'
        rcases best with _ | b
        · exact hbest t' (by simp)
        · by_cases hlt : b.createdAt < t'.createdAt
          · exact hbest t' (by simp [hlt])
          · have := hbest b (by simp [hlt])
            push_neg at hlt
            linarith
      · exact hall t' h'

theorem firstMaxByCreatedAt_mem (timers : List Timer) (t : Timer)
    (h : firstMaxByCreatedAt timers = some t) : t ∈ timers := by
  have := (firstMaxByCreatedAt_rec timers none t h).1
  simpa using this

theorem firstMaxByCreatedAt_max (timers : List Timer) (t : Timer)
    (h : firstMaxByCreatedAt timers = some t) :
    ∀ t', t' ∈ timers → t'.createdAt ≤ t.createdAt :=
  (firstMaxByCreatedAt_rec timers none t h).2.2

theorem resolveTimerConflict_mem (timers : List Timer) (t : Timer)
    (h : resolveTimerConflict timers = some t) : t ∈ timers := by
  match timers with
  | [] => simp [resolveTimerConflict] at h
  | [t'] =>
    simp [resolveTimerConflict] at h
    simp [h]
  | t₁ :: t₂ :: rest =>
    simp only [resolveTimerConflict] at h
    rcases hf : (t₁ :: t₂ :: rest).find?
        (fun t => t.rule.type == RuleType.domain) with _ | d
    · rw [hf] at h
      exact firstMaxByCreatedAt_mem _ _ h
    · rw [hf] at h
      simp at h
      subst h
      exact List.mem_of_find?_eq_some hf

/-- C9: the rule matcher returns either null or a timer that belongs to the
given map and actually matches the address (url rule equal to the address,
or domain rule equal to the address's host); it never returns a
non-matching timer. -/
theorem c9_matcher_sound (parse : String → Option UrlObject)
    (allTimers : List (String × Timer)) (currentUrl : String) (t : Timer)
    (h : findActiveTimerForUrl parse allTimers currentUrl = some t) :
    (∃ key, (key, t) ∈ allTimers) ∧
    ((t.rule.type = RuleType.url ∧ t.rule.value = currentUrl) ∨
     (t.rule.type = RuleType.domain ∧
       getDomainFromUrl parse currentUrl = some t.rule.value)) := by
  have hmem : t ∈ matchingTimersFor parse allTimers currentUrl :=
    resolveTimerConflict_mem _ _ h
  rw [matchingTimersFor, List.mem_filter] at hmem
  obtain ⟨hin, hmatch⟩ := hmem
  constructor
  · obtain ⟨⟨key, t'⟩, hkt, hsnd⟩ := List.mem_map.mp hin
    subst hsnd
    exact ⟨key, hkt⟩
  · rw [timerMatches] at hmatch
    rcases htype : t.rule.type with _ | _
    · rw [htype] at hmatch
      simp at hmatch
      exact Or.inl ⟨rfl, hmatch⟩
    · rw [htype] at hmatch
      rcases hdom : getDomainFromUrl parse currentUrl with _ | d
      · rw [hdom] at hmatch
        simp at hmatch
      · rw [hdom] at hmatch
        simp at hmatch
        exact Or.inr ⟨rfl, by rw [hmatch]⟩

/-- Disabled randomness block used by the concrete example timers. -/
def randOff : RandomnessSettings :=
  { enabled := false, variationPercent := 0, useNormalDistribution := false }

/-- Url-rule timer used by matcher witnesses and counterexamples. -/
def timerU1 : Timer :=
  { id := "u1", tabId := some 7, createdAt := 5, updatedAt := some 5,
    rule := { type := RuleType.url, value := "https://a.com/x" },
    settings := { intervalSeconds := 60, randomness := randOff },
    state := { nextReloadAt := 1000, currentActualInterval := 60 } }

/-- Older domain-rule timer (createdAt 1), listed first. -/
def timerD1 : Timer :=
  { id := "d1", tabId := none, createdAt := 1, updatedAt := some 1,
    rule := { type := RuleType.domain, value := "a.com" },
    settings := { intervalSeconds := 30, randomness := randOff },
    state := { nextReloadAt := 2000, currentActualInterval := 30 } }

/-- Newer domain-rule timer (createdAt 9), listed second. -/
def timerD2 : Timer :=
  { id := "d2", tabId := none, createdAt := 9, updatedAt := some 9,
    rule := { type := RuleType.domain, value := "a.com" },
    settings := { intervalSeconds := 45, randomness := randOff },
    state := { nextReloadAt := 3000, currentActualInterval := 45 } }

/-- C9 witness: on a concrete two-timer map the matcher's result is a
member that matches the address. -/
theorem c9_witness :
    (∃ key, (key, timerD1) ∈ [("u1", timerU1), ("d1", timerD1)]) ∧
    ((timerD1.rule.type = RuleType.url ∧
        timerD1.rule.value = "https://a.com/x") ∨
     (timerD1.rule.type = RuleType.domain ∧
       getDomainFromUrl demoParse "https://a.com/x" =
         some timerD1.rule.value)) :=
  c9_matcher_sound demoParse [("u1", timerU1), ("d1", timerD1)]
    "https://a.com/x" timerD1 (by decide)

/-- C4 counterexample: two domain-rule timers both match the address and
are tied; the code returns the first-listed one (createdAt 1), not the most
recently created one (createdAt 9), so a domain tie is decided by map
enumeration order, not by `createdAt`. -/
theorem c4_counterexample :
    findActiveTimerForUrl demoParse [("d1", timerD1), ("d2", timerD2)]
        "https://a.com/x" = some timerD1 ∧
    timerMatches demoParse "https://a.com/x" timerD1 = true ∧
    timerMatches demoParse "https://a.com/x" timerD2 = true ∧
    timerD1.rule.type = RuleType.domain ∧
    timerD2.rule.type = RuleType.domain ∧
    timerD1.createdAt < timerD2.createdAt ∧
    timerD1 ≠ timerD2 := by
  refine ⟨by decide, by decide, by decide, by decide, by decide,
    by decide, by decide⟩

/-- C4 amended: a domain-rule match always outranks any url-rule match;
among several url-rule matches (no domain match) the timer with the largest
`createdAt` is returned; but among several tied domain-rule matches the
first one in the map's enumeration order is returned, irrespective of
`createdAt`. -/
theorem c4_conflict_resolution (parse : String → Option UrlObject)
    (allTimers : List (String × Timer)) (currentUrl : String) :
    (∀ t, findActiveTimerForUrl parse allTimers currentUrl = some t →
      (∃ d, d ∈ matchingTimersFor parse allTimers currentUrl ∧
        d.rule.type = RuleType.domain) →
      t.rule.type = RuleType.domain) ∧
    (∀ t, (∀ t', t' ∈ matchingTimersFor parse allTimers currentUrl →
        t'.rule.type ≠ RuleType.domain) →
      findActiveTimerForUrl parse allTimers currentUrl = some t →
      t ∈ matchingTimersFor parse allTimers currentUrl ∧
      ∀ t', t' ∈ matchingTimersFor parse allTimers currentUrl →
        t'.createdAt ≤ t.createdAt) ∧
    (∀ t, 2 ≤ (matchingTimersFor parse allTimers currentUrl).length →
      (matchingTimersFor parse allTimers currentUrl).find?
        (fun t => t.rule.type == RuleType.domain) = some t →
      findActiveTimerForUrl parse allTimers currentUrl = some t) := by
  rw [findActiveTimerForUrl]
  rcases hm : matchingTimersFor parse allTimers currentUrl with _ | ⟨t₁, _ | ⟨t₂, rest⟩⟩
  · refine ⟨?_, ?_, ?_⟩
    · intro t ht
      simp [resolveTimerConflict] at ht
    · intro t _ ht
      simp [resolveTimerConflict] at ht
    · intro t hlen
      simp at hlen
  · refine ⟨?_, ?_, ?_⟩
    · intro t ht hd
      simp [resolveTimerConflict] at ht
      obtain ⟨d, hdmem, hdty⟩ := hd
      simp at hdmem
      subst hdmem
      rw [← ht]
      exact hdty
    · intro t _ ht
      simp [resolveTimerConflict] at ht
      subst ht
      refine ⟨by simp, ?_⟩
      intro t' ht'
      simp at ht'
      rw [ht']
    · intro t hlen
      simp at hlen
  · refine ⟨?_, ?_, ?_⟩
    · intro t ht hd
      obtain ⟨d, hdmem, hdty⟩ := hd
      simp only [resolveTimerConflict] at ht
      rcases hf : (t₁ :: t₂ :: rest).find?
          (fun t => t.rule.type == RuleType.domain) with _ | d'
      · exfalso
        have := List.find?_eq_none.mp hf d hdmem
        simp [hdty] at this
      · rw [hf] at ht
        simp at ht
        subst ht
        have := List.find?_some hf
        simpa using this
    · intro t hnone ht
      simp only [resolveTimerConflict] at ht
      rcases hf : (t₁ :: t₂ :: rest).find?
          (fun t => t.rule.type == RuleType.domain) with _ | d'
      · rw [hf] at ht
        exact ⟨firstMaxByCreatedAt_mem _ _ ht, firstMaxByCreatedAt_max _ _ ht⟩
      · exfalso
        have hdmem := List.mem_of_find?_eq_some hf
        have hdty := List.find?_some hf
        simp at hdty
        exact hnone d' hdmem hdty
    · intro t _ hf
      simp only [resolveTimerConflict, hf]

/-- C4 witness: the amended resolution applied on concrete maps — domain
beats url, a url tie picks the larger `createdAt`, and a domain tie picks
the first-listed domain timer. -/
theorem c4_witness :
    findActiveTimerForUrl demoParse [("u1", timerU1), ("d1", timerD1)]
        "https://a.com/x" = some timerD1 ∧
    timerD1.rule.type = RuleType.domain := by
  have h := (c4_conflict_resolution demoParse [("u1", timerU1), ("d1", timerD1)]
      "https://a.com/x").2.2 timerD1 (by decide) (by decide)
  have hd := (c4_conflict_resolution demoParse [("u1", timerU1), ("d1", timerD1)]
      "https://a.com/x").1 timerD1 h ⟨timerD1, by decide, by decide⟩
  exact ⟨h, hd⟩

/-- C10: `getDomainFromUrl` is total — for every input string it returns
the URL's hostname when the platform parser accepts the string, and null
(`none`) when the parser throws; the error branch is the null result, never
a propagated exception. -/
theorem c10_getDomainFromUrl_total (parse : String → Option UrlObject)
    (url : String) :
    (∀ urlObj, parse url = some urlObj →
      getDomainFromUrl parse url = some urlObj.hostname) ∧
    (parse url = none → getDomainFromUrl parse url = none) := by
  constructor
  · intro urlObj hp
    simp [getDomainFromUrl, hp]
  · intro hp
    simp [getDomainFromUrl, hp]

/-- C10 witness: a parsable address yields its hostname, an unparsable one
yields null. -/
theorem c10_witness :
    getDomainFromUrl demoParse "https://a.com/x" = some "a.com" ∧
    getDomainFromUrl demoParse "not a url" = none :=
  ⟨(c10_getDomainFromUrl_total demoParse "https://a.com/x").1 ⟨"a.com"⟩
      (by decide),
   (c10_getDomainFromUrl_total demoParse "not a url").2 (by decide)⟩

/-- JavaScript `t.updatedAt || t.createdAt`: `undefined` and `0` fall back
to `createdAt`. -/
def effTimestamp (updatedAt : Option Int) (createdAt : Int) : Int :=
  match updatedAt with
  | none => createdAt
  | some v => if v = 0 then createdAt else v

/-- Effective last-update time of a local timer
(`localTimer.updatedAt || localTimer.createdAt`). -/
def localEff (t : Timer) : Int := effTimestamp t.updatedAt t.createdAt

/-- Settings-only projection written to the remote store by `performSync`:
identity, rule, settings and timestamps, without `tabId` and `state`. -/
structure SyncTimer where
  id : String
  rule : Rule
  settings : Settings
  createdAt : Int
  updatedAt : Option Int
deriving DecidableEq

/-- Effective last-update time of a remote timer
(`syncTimer.updatedAt || syncTimer.createdAt`). -/
def syncEff (t : SyncTimer) : Int := effTimestamp t.updatedAt t.createdAt

/-- The settings-only projection of a local timer, with `updatedAt`
normalised to the effective local timestamp, exactly as built inside
`performSync`. -/
def settingsProjection (t : Timer) : SyncTimer :=
  { id := t.id, rule := t.rule, settings := t.settings,
    createdAt := t.createdAt, updatedAt := some (localEff t) }

/-- Embedding of `performSync` (sidepanel source, read-merge-write): the
returned map is the remote snapshot after the write-back.  The JavaScript
loops touch each id independently, so the merged object is this pointwise
map: a remote id absent locally is deleted, a local timer that is absent
remotely or at least as new as the remote copy overwrites it with the
settings-only projection, and an older local timer leaves the remote copy
in place. -/
def performSync (localTimers : String → Option Timer)
    (syncTimers : String → Option SyncTimer) : String → Option SyncTimer :=
  fun timerId =>
    match localTimers timerId with
    | none => none
    | some localTimer =>
      match syncTimers timerId with
      | none => some (settingsProjection localTimer)
      | some syncTimer =>
        if syncEff syncTimer ≤ localEff localTimer then
          some (settingsProjection localTimer)
        else some syncTimer

theorem syncEff_settingsProjection (t : Timer) :
    syncEff (settingsProjection t) = localEff t := by
  rcases hu : t.updatedAt with _ | v
  · simp [syncEff, settingsProjection, localEff, effTimestamp, hu, ite_self]
  · by_cases hv : v = 0
    · simp [syncEff, settingsProjection, localEff, effTimestamp, hu, hv,
        ite_self]
    · simp [syncEff, settingsProjection, localEff, effTimestamp, hu, hv]

/-- C3: the outbound merge protocol is idempotent — with no intervening
local changes, running `performSync` a second time leaves the remote
snapshot identical to the one produced by the first run. -/
theorem c3_performSync_idempotent (localTimers : String → Option Timer)
    (syncTimers : String → Option SyncTimer) :
    performSync localTimers (performSync localTimers syncTimers) =
      performSync localTimers syncTimers := by
  funext timerId
  simp only [performSync]
  rcases hL : localTimers timerId with _ | localTimer
  · rfl
  · rcases hS : syncTimers timerId with _ | syncTimer
    · simp [syncEff_settingsProjection]
    · by_cases hcmp : syncEff syncTimer ≤ localEff localTimer
      · simp [hcmp, syncEff_settingsProjection]
      · simp [hcmp]

/-- Local timer instantiated from a remote copy during the startup merge:
the spread of the remote record plus `tabId = null` and a fresh `state`
whose next fire is `now + intervalSeconds * 1000`. -/
def restoredFromSync (st : SyncTimer) (now : Int) : Timer :=
  { id := st.id, tabId := none, createdAt := st.createdAt,
    updatedAt := st.updatedAt, rule := st.rule, settings := st.settings,
    state := { nextReloadAt := now + st.settings.intervalSeconds * 1000,
               currentActualInterval := st.settings.intervalSeconds } }

/-- The overwrite applied by `mergeWithSync` when the remote copy is
strictly newer: rule, settings and `updatedAt` taken from the remote,
everything else (in particular `tabId` and `state`) kept local. -/
def overwrittenFromSync (lt : Timer) (st : SyncTimer) : Timer :=
  { lt with
    rule := st.rule, settings := st.settings, updatedAt := some (syncEff st) }

/-- Embedding of `mergeWithSync` (sidepanel source, startup merge): the
returned map is the local snapshot after the merge.  The source's early
return when the remote snapshot is empty leaves the local map unchanged,
which coincides with this pointwise definition because every id then takes
the `none` branch. -/
def mergeWithSync (localTimers : String → Option Timer)
    (syncTimers : String → Option SyncTimer) (now : Int) :
    String → Option Timer :=
  fun timerId =>
    match syncTimers timerId with
    | none => localTimers timerId
    | some syncTimer =>
      match localTimers timerId with
      | none => some (restoredFromSync syncTimer now)
      | some localTimer =>
        if localEff localTimer < syncEff syncTimer then
          some (overwrittenFromSync localTimer syncTimer)
        else some localTimer

/-- C2: during the startup merge, a remote timer absent locally is
instantiated locally with `tabId = null` and a fresh state whose
`nextReloadAt` is now plus the configured interval in milliseconds; a
remote timer present locally with strictly newer `updatedAt` overwrites
only the local rule, settings and `updatedAt`, leaving `tabId` and `state`
(and identity and `createdAt`) unchanged. -/
theorem c2_merge_startup (localTimers : String → Option Timer)
    (syncTimers : String → Option SyncTimer) (now : Int) (timerId : String)
    (st : SyncTimer) (hS : syncTimers timerId = some st) :
    (localTimers timerId = none →
      mergeWithSync localTimers syncTimers now timerId =
        some (restoredFromSync st now) ∧
      (restoredFromSync st now).tabId = none ∧
      (restoredFromSync st now).state.nextReloadAt =
        now + st.settings.intervalSeconds * 1000 ∧
      (restoredFromSync st now).rule = st.rule ∧
      (restoredFromSync st now).settings = st.settings) ∧
    (∀ lt lu ru, localTimers timerId = some lt →
      lt.updatedAt = some lu → st.updatedAt = some ru →
      lu ≠ 0 → ru ≠ 0 → lu < ru →
      ∃ t', mergeWithSync localTimers syncTimers now timerId = some t' ∧
        t'.rule = st.rule ∧ t'.settings = st.settings ∧
        t'.updatedAt = some ru ∧
        t'.tabId = lt.tabId ∧ t'.state = lt.state ∧
        t'.id = lt.id ∧ t'.createdAt = lt.createdAt) := by
  constructor
  · intro hL
    refine ⟨?_, rfl, rfl, rfl, rfl⟩
    simp [mergeWithSync, hS, hL]
  · intro lt lu ru hL hlu hru hlu0 hru0 hlt
    have heffl : localEff lt = lu := by
      simp [localEff, effTimestamp, hlu, hlu0]
    have heffr : syncEff st = ru := by
      simp [syncEff, effTimestamp, hru, hru0]
    refine ⟨overwrittenFromSync lt st, ?_, rfl, rfl, ?_, rfl, rfl, rfl, rfl⟩
    · simp only [mergeWithSync, hS, hL]
      rw [if_pos (by rw [heffl, heffr]; exact hlt)]
    · simp [overwrittenFromSync, heffr]

/-- Remote-only timer used by the C2 witness. -/
def syncTimerR : SyncTimer :=
  { id := "r1", rule := { type := RuleType.domain, value := "a.com" },
    settings := { intervalSeconds := 25, randomness := randOff },
    createdAt := 50, updatedAt := some 400 }

/-- C2 witness: with an empty local store, the startup merge instantiates
the remote timer locally with `tabId = null` and next fire now + 25000 ms;
with a stale local copy, it overwrites rule/settings/updatedAt only. -/
theorem c2_witness :
    (mergeWithSync (fun _ => none) (fun i => if i = "r1" then some syncTimerR else none)
        1000 "r1" = some (restoredFromSync syncTimerR 1000) ∧
      (restoredFromSync syncTimerR 1000).tabId = none) ∧
    (∃ t', mergeWithSync (fun i => if i = "r1" then some timerD1 else none)
        (fun i => if i = "r1" then some syncTimerR else none) 1000 "r1" = some t' ∧
      t'.settings = syncTimerR.settings ∧ t'.tabId = timerD1.tabId ∧
      t'.state = timerD1.state) := by
  constructor
  · have h := (c2_merge_startup (fun _ => none)
      (fun i => if i = "r1" then some syncTimerR else none) 1000 "r1"
      syncTimerR (by decide)).1 rfl
    exact ⟨h.1, h.2.1⟩
  · have h := (c2_merge_startup (fun i => if i = "r1" then some timerD1 else none)
      (fun i => if i = "r1" then some syncTimerR else none) 1000 "r1"
      syncTimerR (by decide)).2 timerD1 1 400 (by decide) (by decide)
      (by decide) (by decide) (by decide) (by decide)
    obtain ⟨t', hmerge, _, hsettings, _, htab, hstate, _, _⟩ := h
    exact ⟨t', hmerge, hsettings, htab, hstate⟩

/-- Partial update object passed to the store's `updateTimer(timerId,
updates)`: `some` marks a key that is present.  For `tabId` the inner
option is the stored value (which may itself be `null`). -/
structure TimerUpdates where
  id : Option String
  tabId : Option (Option Int)
  createdAt : Option Int
  updatedAt : Option Int
  rule : Option Rule
  settings : Option Settings
  state : Option TimerState
deriving DecidableEq

/-- Number of keys present in the update object
(`Object.keys(updates).length`). -/
def countKeys (u : TimerUpdates) : Nat :=
  (if u.id.isSome then 1 else 0) + (if u.tabId.isSome then 1 else 0) +
  (if u.createdAt.isSome then 1 else 0) +
  (if u.updatedAt.isSome then 1 else 0) + (if u.rule.isSome then 1 else 0) +
  (if u.settings.isSome then 1 else 0) + (if u.state.isSome then 1 else 0)

/-- Test `Object.keys(updates).length === 1 && updates.state` of the
store's update operation (a present `state` is an object, hence truthy). -/
def isStateOnlyUpdate (u : TimerUpdates) : Bool :=
  countKeys u == 1 && u.state.isSome

/-- Spread `{...timers[timerId], ...updates}` after the conditional
`updates.updatedAt = Date.now()` mutation. -/
def applyTimerUpdates (t : Timer) (u : TimerUpdates) (now : Int) : Timer :=
  let u2 := if isStateOnlyUpdate u then u else { u with updatedAt := some now }
  { id := u2.id.getD t.id,
    tabId := u2.tabId.getD t.tabId,
    createdAt := u2.createdAt.getD t.createdAt,
    updatedAt := match u2.updatedAt with
      | some v => some v
      | none => t.updatedAt,
    rule := u2.rule.getD t.rule,
    settings := u2.settings.getD t.settings,
    state := u2.state.getD t.state }

/-- Embedding of the Timer Store's `updateTimer(timerId, updates)`
(sidepanel source): a missing id leaves the map unchanged; otherwise the
stored record is replaced by the spread of the old record and the update
object, with `updatedAt` stamped to now unless the update is state-only. -/
def updateTimer (timers : String → Option Timer) (timerId : String)
    (updates : TimerUpdates) (now : Int) : String → Option Timer :=
  match timers timerId with
  | none => timers
  | some t =>
    fun i => if i = timerId then some (applyTimerUpdates t updates now)
             else timers i

/-- Update object containing only a `state` key. -/
def updStateOnly : TimerUpdates :=
  { id := none, tabId := none, createdAt := none, updatedAt := none,
    rule := none, settings := none,
    state := some { nextReloadAt := 9999, currentActualInterval := 60 } }

/-- Update object containing only a `tabId` key. -/
def updTabOnly : TimerUpdates :=
  { id := none, tabId := some (some 5), createdAt := none,
    updatedAt := none, rule := none, settings := none, state := none }

/-- Update object containing only a `settings` key. -/
def updSettingsOnly : TimerUpdates :=
  { id := none, tabId := none, createdAt := none, updatedAt := none,
    rule := none,
    settings := some { intervalSeconds := 90, randomness := randOff },
    state := none }

/-- Map holding the single timer `timerU1` under id "u1". -/
def mapU1 : String → Option Timer := fun i =>
  if i = "u1" then some timerU1 else none

/-- C1 counterexample: an update whose only key is `tabId` changes neither
`settings` nor `rule`, yet `updateTimer` advances `updatedAt` (from 5 to
200), so `updatedAt` is not bumped only when settings or rule change. -/
theorem c1_counterexample :
    updTabOnly.settings = none ∧ updTabOnly.rule = none ∧
    updTabOnly.state = none ∧
    timerU1.updatedAt = some 5 ∧ mapU1 "u1" = some timerU1 ∧
    (updateTimer mapU1 "u1" updTabOnly 200 "u1").map Timer.updatedAt =
      some (some 200) ∧
    (updateTimer mapU1 "u1" updTabOnly 200 "u1").map Timer.settings =
      some timerU1.settings ∧
    (updateTimer mapU1 "u1" updTabOnly 200 "u1").map Timer.rule =
      some timerU1.rule := by
  refine ⟨rfl, rfl, rfl, rfl, rfl, by decide, by decide, by decide⟩

theorem stateOnly_updatedAt_none (u : TimerUpdates)
    (h : isStateOnlyUpdate u = true) : u.updatedAt = none := by
  rcases u with ⟨i, tb, c, ua, r, s, st⟩
  rcases ua with _ | v
  · rfl
  · exfalso
    simp only [isStateOnlyUpdate, countKeys, Bool.and_eq_true, beq_iff_eq] at h
    rcases h with ⟨hcount, hstate⟩
    rcases st with _ | stv
    · simp at hstate
    · simp only [Option.isSome_some, if_pos, if_true] at hcount
      omega

/-- C1 amended: `updatedAt` is left unchanged exactly when the update is
state-only (its single key is `state`); every other update — including one
whose only key is `tabId` — stamps `updatedAt` to now; in particular an
update containing a `settings` key always advances `updatedAt`. -/
theorem c1_updatedAt_policy (timers : String → Option Timer)
    (timerId : String) (updates : TimerUpdates) (now : Int) (t : Timer)
    (ht : timers timerId = some t) :
    (isStateOnlyUpdate updates = true →
      ∃ t', updateTimer timers timerId updates now timerId = some t' ∧
        t'.updatedAt = t.updatedAt) ∧
    (isStateOnlyUpdate updates = false →
      ∃ t', updateTimer timers timerId updates now timerId = some t' ∧
        t'.updatedAt = some now) ∧
    (updates.settings.isSome = true →
      ∃ t', updateTimer timers timerId updates now timerId = some t' ∧
        t'.updatedAt = some now) := by
  have hres : updateTimer timers timerId updates now timerId =
      some (applyTimerUpdates t updates now) := by
    simp [updateTimer, ht]
  have hsettings_not_stateOnly : updates.settings.isSome = true →
      isStateOnlyUpdate updates = false := by
    intro hs
    rcases hso : isStateOnlyUpdate updates with _ | _
    · rfl
    · exfalso
      rcases updates with ⟨i, tb, c, ua, r, s, st⟩
      simp only [isStateOnlyUpdate, countKeys, Bool.and_eq_true,
        beq_iff_eq] at hso
      rcases hso with ⟨hcount, hstate⟩
      rcases s with _ | sv
      · simp at hs
      · rcases st with _ | stv
        · simp at hstate
        · simp [countKeys] at hcount
  refine ⟨?_, ?_, ?_⟩
  · intro hso
    refine ⟨applyTimerUpdates t updates now, hres, ?_⟩
    have hua := stateOnly_updatedAt_none updates hso
    simp [applyTimerUpdates, hso, hua]
  · intro hso
    refine ⟨applyTimerUpdates t updates now, hres, ?_⟩
    simp [applyTimerUpdates, hso]
  · intro hs
    refine ⟨applyTimerUpdates t updates now, hres, ?_⟩
    simp [applyTimerUpdates, hsettings_not_stateOnly hs]

/-- C1 witness: on the concrete one-timer map, a state-only update keeps
`updatedAt = some 5` and a settings update stamps it to 300. -/
theorem c1_witness :
    (∃ t', updateTimer mapU1 "u1" updStateOnly 300 "u1" = some t' ∧
      t'.updatedAt = timerU1.updatedAt) ∧
    (∃ t', updateTimer mapU1 "u1" updSettingsOnly 300 "u1" = some t' ∧
      t'.updatedAt = some 300) :=
  ⟨(c1_updatedAt_policy mapU1 "u1" updStateOnly 300 timerU1 rfl).1 (by decide),
   (c1_updatedAt_policy mapU1 "u1" updSettingsOnly 300 timerU1 rfl).2.2
     (by decide)⟩

/-- Embedding of `urlMatches(currentUrl, savedUrl, applyToDomain)`
(background source): exact equality always matches; in domain mode two
parseable, non-empty, equal hostnames match (an empty hostname is falsy in
the JavaScript `&&` chain). -/
def urlMatches (parse : String → Option UrlObject)
    (currentUrl savedUrl : String) (applyToDomain : Bool) : Bool :=
  if currentUrl = savedUrl then true
  else if applyToDomain then
    match getDomainFromUrl parse currentUrl,
        getDomainFromUrl parse savedUrl with
    | some currentDomain, some savedDomain =>
      currentDomain != "" && savedDomain != "" &&
        currentDomain == savedDomain
    | _, _ => false
  else false

/-- Embedding of `getTimerKey(url, applyToDomain)`: the domain when the
rule is domain-scoped and the domain is extractable (non-null, non-empty),
the full url otherwise. -/
def getTimerKey (parse : String → Option UrlObject) (url : String)
    (applyToDomain : Bool) : String :=
  if applyToDomain then
    match getDomainFromUrl parse url with
    | some d => if d = "" then url else d
    | none => url
  else url

/-- Background reconciliation state: the durable `autoReloadTabs` map (the
source keeps `trackedTabsCache` and the stored copy in lockstep through
`setStoredTabs`, so one map models both), the durable `orphanedTimers`
object as an ordered association list, and per-tab scheduled-fire status
(`armed i = true` when a `chrome.alarms` alarm or a timeout is pending for
tab `i`). -/
structure BgState where
  trackedTabs : Int → Option BgEntry
  orphanedTimers : List (String × BgEntry)
  armed : Int → Bool

/-- Embedding of `clearReload(tabId)`: drops any pending alarm and timeout
for the tab. -/
def clearReload (s : BgState) (tabId : Int) : BgState :=
  { s with armed := fun i => if i = tabId then false else s.armed i }

/-- Embedding of `scheduleReload(tabId, intervalSeconds)`: arms a fire for
the tab (after clearing any previous one).  Whether the platform alarm or
the in-process timeout carries the fire (threshold 30 s) is a delivery
detail not observed by the claims. -/
def scheduleReload (s : BgState) (tabId : Int) : BgState :=
  { (clearReload s tabId) with armed := fun i => if i = tabId then true else (clearReload s tabId).armed i }

/-- Embedding of `disableTabReload(tabId)` (background source): deletes the
tab's entry from the durable tracked map and disarms its fire (badge and
icon updates are display-only). -/
def disableTabReload (s : BgState) (tabId : Int) : BgState :=
  clearReload
    { s with trackedTabs := fun i => if i = tabId then none else s.trackedTabs i }
    tabId

/-- Embedding of `handleReload(tabId)` (background source): `tab` is the
result of `getTab` (`none` when the tab no longer exists), `now` is
`Date.now()` and `u`, `z0` the random draws.  Returns the new state and
whether `chrome.tabs.reload` was issued. -/
def handleReload (parse : String → Option UrlObject) (s : BgState)
    (tabId : Int) (tab : Option String) (now u z0 : ℚ) : BgState × Bool :=
  match s.trackedTabs tabId with
  | none => (clearReload s tabId, false)
  | some entry =>
    match tab with
    | none => (disableTabReload s tabId, false)
    | some tabUrl =>
      let shouldReload := urlMatches parse tabUrl entry.url entry.applyToDomain
      let nextInterval := calculateNextInterval entry u z0
      let entry2 := { entry with nextReloadAt := some (now + nextInterval * 1000), currentActualInterval := some nextInterval }
      let s2 := { s with trackedTabs := fun i => if i = tabId then some entry2 else s.trackedTabs i }
      (scheduleReload s2 tabId, shouldReload)

/-- Lookup in the `orphanedTimers` object. -/
def lookupOrphan (orphans : List (String × BgEntry)) (key : String) :
    Option BgEntry :=
  match orphans.find? (fun p => p.1 == key) with
  | some p => some p.2
  | none => none

/-- JavaScript `orphanedTimers[key] = value` on a plain object: an existing
key is updated in place (keeping enumeration order), a new key is
appended. -/
def upsertOrphan (orphans : List (String × BgEntry)) (key : String)
    (value : BgEntry) : List (String × BgEntry) :=
  if orphans.any (fun p => p.1 == key) then
    orphans.map (fun p => if p.1 == key then (key, value) else p)
  else orphans ++ [(key, value)]

/-- JavaScript `delete orphanedTimers[key]`. -/
def removeOrphan (orphans : List (String × BgEntry)) (key : String) :
    List (String × BgEntry) :=
  orphans.filter (fun p => p.1 != key)

/-- Embedding of the `chrome.tabs.onRemoved` listener (background source):
a tracked entry is first saved into `orphanedTimers` under its rule key
with a `savedAt` stamp, then removed from the active map via
`disableTabReload`. -/
def onTabRemoved (parse : String → Option UrlObject) (s : BgState)
    (tabId : Int) (now : ℚ) : BgState :=
  match s.trackedTabs tabId with
  | none => s
  | some entry =>
    let key := getTimerKey parse entry.url entry.applyToDomain
    let orphaned2 := upsertOrphan s.orphanedTimers key { entry with savedAt := some now }
    disableTabReload { s with orphanedTimers := orphaned2 } tabId

/-- Fields of the `changeInfo` argument of `chrome.tabs.onUpdated` that the
listener reads. -/
structure ChangeInfo where
  url : Option String
  status : Option String
deriving DecidableEq

/-- Embedding of the `chrome.tabs.onUpdated` listener (background source).
With no tracked entry and a completed load, the first orphan whose rule
matches the tab address is reinstated (with remaining or fresh interval —
an absent `nextReloadAt` makes `Math.max(0, NaN) > 0` false, hence the
fresh-interval branch) and deleted from the orphan store.  With a tracked
entry and a changed url: a still-matching domain rule rebinds the stored
url; a mismatch deletes the entry in domain mode via `disableTabReload`
and only hides visuals in url mode. -/
def onTabUpdated (parse : String → Option UrlObject) (s : BgState)
    (tabId : Int) (changeInfo : ChangeInfo) (tabUrl : String)
    (now u z0 : ℚ) : BgState :=
  match s.trackedTabs tabId with
  | none =>
    if changeInfo.status = some "complete" ∧ tabUrl ≠ "" then
      match s.orphanedTimers.find?
          (fun p => urlMatches parse tabUrl p.2.url p.2.applyToDomain) with
      | none => s
      | some (key, timer) =>
        let remainingPos :=
          match timer.nextReloadAt with
          | some nra => decide (0 < max 0 (nra - now))
          | none => false
        let timer1 :=
          if timer.applyToDomain && tabUrl != timer.url then
            { timer with url := tabUrl }
          else timer
        let nextInterval := calculateNextInterval timer u z0
        let timer2 :=
          if remainingPos then timer1
          else { timer1 with nextReloadAt := some (now + nextInterval * 1000), currentActualInterval := some nextInterval }
        let s2 := { s with trackedTabs := fun i => if i = tabId then some timer2 else s.trackedTabs i, orphanedTimers := removeOrphan s.orphanedTimers key }
        scheduleReload s2 tabId
    else s
  | some entry =>
    match changeInfo.url with
    | some newUrl =>
      if urlMatches parse newUrl entry.url entry.applyToDomain then
        if entry.applyToDomain && newUrl != entry.url then
          { s with trackedTabs := fun i => if i = tabId then some { entry with url := newUrl } else s.trackedTabs i }
        else s
      else
        if entry.applyToDomain then disableTabReload s tabId
        else s
    | none => s

/-- Domain-scoped tracked entry bound to tab 1, used by the C5 and C6
concrete states. -/
def entryDomainA : BgEntry :=
  { url := "https://a.com/x", applyToDomain := true,
    intervalSeconds := some 60, randomness := none,
    nextReloadAt := some 5000, currentActualInterval := some 60,
    savedAt := none }

/-- Background state with `entryDomainA` tracked under tab 1, an armed
fire for tab 1, and an empty orphan store. -/
def bgStateA : BgState :=
  { trackedTabs := fun i => if i = 1 then some entryDomainA else none,
    orphanedTimers := [],
    armed := fun i => i == 1 }

/-- C5 counterexample: the fire handler running for tab 1 while the tab no
longer exists deletes the tracked record from the durable store and leaves
no orphan copy — the record is not kept anywhere, contrary to the claim. -/
theorem c5_counterexample :
    bgStateA.trackedTabs 1 = some entryDomainA ∧
    (handleReload demoParse bgStateA 1 none 0 0 0).1.trackedTabs 1 = none ∧
    (handleReload demoParse bgStateA 1 none 0 0 0).1.orphanedTimers = [] ∧
    (handleReload demoParse bgStateA 1 none 0 0 0).1.armed 1 = false := by
  refine ⟨rfl, by decide, rfl, by decide⟩

/-- C5 amended: when the fire handler runs for a tracked timer whose bound
tab no longer exists, it disarms the scheduled fire and deletes the
tracked record from the durable store; no orphan copy is made on this path
(orphaning happens only in the tab-closed listener), and no reload is
issued. -/
theorem c5_fire_missing_tab (parse : String → Option UrlObject)
    (s : BgState) (tabId : Int) (entry : BgEntry) (now u z0 : ℚ)
    (h : s.trackedTabs tabId = some entry) :
    (handleReload parse s tabId none now u z0).1.trackedTabs tabId = none ∧
    (handleReload parse s tabId none now u z0).1.orphanedTimers =
      s.orphanedTimers ∧
    (handleReload parse s tabId none now u z0).1.armed tabId = false ∧
    (handleReload parse s tabId none now u z0).2 = false := by
  simp [handleReload, h, disableTabReload, clearReload]

/-- C5 witness: the amended behaviour on the concrete state `bgStateA`. -/
theorem c5_witness :
    (handleReload demoParse bgStateA 1 none 7 0 0).1.trackedTabs 1 = none ∧
    (handleReload demoParse bgStateA 1 none 7 0 0).1.orphanedTimers =
      bgStateA.orphanedTimers ∧
    (handleReload demoParse bgStateA 1 none 7 0 0).1.armed 1 = false ∧
    (handleReload demoParse bgStateA 1 none 7 0 0).2 = false :=
  c5_fire_missing_tab demoParse bgStateA 1 entryDomainA 7 0 0 (by decide)

theorem find?_map_upsert (orphans : List (String × BgEntry)) (key : String)
    (value : BgEntry)
    (hany : orphans.any (fun p => p.1 == key) = true) :
    (orphans.map (fun p => if p.1 == key then (key, value) else p)).find?
      (fun p => p.1 == key) = some (key, value) := by
  induction orphans with
  | nil => simp at hany
  | cons a l ih =>
    by_cases ha : a.1 = key
    · simp [List.find?, ha]
    · have ha' : (a.1 == key) = false := beq_eq_false_iff_ne.mpr ha
      simp only [List.any_cons, ha', Bool.false_or] at hany
      simp only [List.map_cons, ha', Bool.false_eq_true, if_false]
      rw [List.find?_cons_of_neg _ (by simp [ha'])]
      exact ih hany

theorem find?_append_absent (orphans : List (String × BgEntry))
    (key : String) (value : BgEntry)
    (hany : orphans.any (fun p => p.1 == key) = false) :
    (orphans ++ [(key, value)]).find? (fun p => p.1 == key) =
      some (key, value) := by
  induction orphans with
  | nil => simp [List.find?]
  | cons a l ih =>
    simp only [List.any_cons, Bool.or_eq_false_iff] at hany
    simp only [List.cons_append, List.find?, hany.1]
    exact ih hany.2

theorem lookupOrphan_upsert (orphans : List (String × BgEntry))
    (key : String) (value : BgEntry) :
    lookupOrphan (upsertOrphan orphans key value) key = some value := by
  rw [upsertOrphan]
  by_cases hany : orphans.any (fun p => p.1 == key) = true
  · rw [if_pos hany, lookupOrphan, find?_map_upsert orphans key value hany]
  · rw [if_neg hany, lookupOrphan, find?_append_absent orphans key value
      (Bool.not_eq_true _ ▸ hany)]

/-- C6 amended: processing a tab-closed event never destroys the timer's
data — the record is saved into the orphan store under its rule key with
settings and rule preserved before removal from the active map; a
tab-navigated event whose new address no longer matches leaves a url-rule
timer's persistent state completely untouched (visuals only); but for a
domain-rule timer such a navigation deletes the tracked record without
orphaning it, so destruction is not exclusive to an explicit user stop. -/
theorem c6_lifecycle_preservation (parse : String → Option UrlObject)
    (s : BgState) (tabId : Int) (entry : BgEntry) (now u z0 : ℚ)
    (newUrl : String) (status : Option String)
    (h : s.trackedTabs tabId = some entry) :
    ((onTabRemoved parse s tabId now).trackedTabs tabId = none ∧
      lookupOrphan (onTabRemoved parse s tabId now).orphanedTimers
        (getTimerKey parse entry.url entry.applyToDomain) =
        some { entry with savedAt := some now } ∧
      ({ entry with savedAt := some now }).intervalSeconds =
        entry.intervalSeconds ∧
      ({ entry with savedAt := some now }).randomness = entry.randomness ∧
      ({ entry with savedAt := some now }).url = entry.url ∧
      ({ entry with savedAt := some now }).applyToDomain =
        entry.applyToDomain) ∧
    (entry.applyToDomain = false →
      urlMatches parse newUrl entry.url entry.applyToDomain = false →
      onTabUpdated parse s tabId { url := some newUrl, status := status }
        newUrl now u z0 = s) ∧
    (entry.applyToDomain = true →
      urlMatches parse newUrl entry.url entry.applyToDomain = false →
      (onTabUpdated parse s tabId { url := some newUrl, status := status }
          newUrl now u z0).trackedTabs tabId = none ∧
      (onTabUpdated parse s tabId { url := some newUrl, status := status }
          newUrl now u z0).orphanedTimers = s.orphanedTimers) := by
  refine ⟨?_, ?_, ?_⟩
  · refine ⟨?_, ?_, rfl, rfl, rfl, rfl⟩
    · simp [onTabRemoved, h, disableTabReload, clearReload]
    · simp only [onTabRemoved, h, disableTabReload, clearReload]
      exact lookupOrphan_upsert _ _ _
  · intro hdom hmatch
    simp [onTabUpdated, h, hmatch, hdom]
  · intro hdom hmatch
    rw [hdom] at hmatch
    constructor
    · simp [onTabUpdated, h, hmatch, hdom, disableTabReload, clearReload]
    · simp [onTabUpdated, h, hmatch, hdom, disableTabReload, clearReload]

/-- C6 counterexample: tab 1 holds a domain-rule timer for a.com; a
navigation of that tab to b.com (a tab-navigated event, not a user stop)
deletes the persisted record — it survives neither in the tracked map nor
in the orphan store. -/
theorem c6_counterexample :
    bgStateA.trackedTabs 1 = some entryDomainA ∧
    (onTabUpdated demoParse bgStateA 1
        { url := some "https://b.com/", status := some "loading" }
        "https://b.com/" 0 0 0).trackedTabs 1 = none ∧
    (onTabUpdated demoParse bgStateA 1
        { url := some "https://b.com/", status := some "loading" }
        "https://b.com/" 0 0 0).orphanedTimers = [] := by
  refine ⟨rfl, by decide, by decide⟩

/-- C6 witness: the amended lifecycle statement applied on the concrete
state `bgStateA` — tab close preserves the record in the orphan store and
the domain-mismatch navigation deletes it. -/
theorem c6_witness :
    ((onTabRemoved demoParse bgStateA 1 42).trackedTabs 1 = none ∧
      lookupOrphan (onTabRemoved demoParse bgStateA 1 42).orphanedTimers
        (getTimerKey demoParse entryDomainA.url entryDomainA.applyToDomain) =
        some { entryDomainA with savedAt := some 42 }) ∧
    ((onTabUpdated demoParse bgStateA 1
        { url := some "https://b.com/", status := some "loading" }
        "https://b.com/" 42 0 0).trackedTabs 1 = none) := by
  have h := c6_lifecycle_preservation demoParse bgStateA 1 entryDomainA 42 0 0
    "https://b.com/" (some "loading") (by decide)
  exact ⟨⟨h.1.1, h.1.2.1⟩, (h.2.2 (by decide) (by decide)).1⟩

end PageReload
